import Mathlib

/-!
Verification of the videostream-rs frame-sharing wrapper.

The Rust sources under verification are `src/lib.rs`, `src/frame.rs` and
`src/encoder.rs`.  Rust strings are embedded as lists of their UTF-8 bytes
(`List Nat`, each entry below 256); raw pointers are embedded as `Nat` with
`0` standing for the null pointer; calls into the native VideoStream C
library are embedded as oracle parameters carrying the value the native
call returns.  A Rust index expression that can go out of bounds is
embedded with `Option`: a `none` result marks the out-of-bounds abort.
-/

namespace VideoStream

/-- Modulus of the 32-bit unsigned machine integers used by the Rust code. -/
def U32LIM : Nat := 4294967296

/-- Embedding of `fourcc` from `src/lib.rs`:
`for i in 0..4 { fourcc |= (bytes[i] as u32) << (i * 8); }`.
The loop reads `bytes[i]` for `i = 0,1,2,3` unconditionally, so an input
with fewer than 4 bytes aborts out of bounds, embedded as `none`. -/
def fourcc (bytes : List Nat) : Option Nat :=
  (List.range 4).foldl
    (fun acc i =>
      match acc, bytes[i]? with
      | some fc, some b => some (fc ||| (b <<< (i * 8)) % U32LIM)
      | _, _ => none)
    (some 0)

/-- Embedding of the packing loop inside `Frame::new` from `src/frame.rs`:
`for i in 0..buf.len() { fourcc += (buf[i] as u32) << i * 8; }`.
Note the source uses `+=` here, not `|=`.  Indices stay below the length,
so no out-of-bounds abort is possible in this loop. -/
def frameNewFourcc (bytes : List Nat) : Nat :=
  (List.range bytes.length).foldl
    (fun fc i => (fc + (bytes.getD i 0 <<< (i * 8)) % U32LIM) % U32LIM)
    0

/-- The packing formula as the spec words it: `byte[0] | byte[1]<<8 |
byte[2]<<16 | byte[3]<<24`.  This definition follows the spec text and is
compared against the two source-derived encodings above. -/
def fourccSpecLE (bytes : List Nat) : Nat :=
  ((bytes.getD 0 0 ||| bytes.getD 1 0 <<< 8) ||| bytes.getD 2 0 <<< 16) |||
    bytes.getD 3 0 <<< 24

/-- Inverse of the little-endian packing: recovers the 4 bytes of a packed
32-bit format code.  The source has no decoder; this one is defined to
settle the round-trip property, which asserts such an inverse exists. -/
def fourccDecode (y : Nat) : List Nat :=
  [y % 256, y / 256 % 256, y / 65536 % 256, y / 16777216 % 256]

-- scratch checks
example : fourcc [65, 66, 67] = none := by decide
example : fourcc [65, 66, 67, 68] = some 1145258561 := by decide
example : frameNewFourcc [65, 66, 67, 68] = 1145258561 := by decide
example : fourccSpecLE [65, 66, 67, 68] = 1145258561 := by decide
example : fourccDecode 1145258561 = [65, 66, 67, 68] := by decide

/-- The error values the embedded Rust functions return.  `fourccLenMsg` is
the string error `"fourcc must be 4 character ascii code"`; `lastOsError`
is `io::Error::last_os_error()`; `nullStringMsg` is the crate type
`NullStringError`; `unitErr` is the unit error `Err(())`. -/
inductive RustError
  | fourccLenMsg
  | lastOsError
  | nullStringMsg
  | unitErr
deriving DecidableEq, Repr

/-- Embedding of the `Frame` struct from `src/frame.rs`: a single raw
pointer field `ptr: *mut ffi::VSLFrame`, embedded as a `Nat` address. -/
structure Frame where
  ptr : Nat
deriving DecidableEq, Repr

/-- Embedding of `Frame::new` from `src/frame.rs`.  `vsl_frame_init` is the
oracle for the native call of the same name: it maps the arguments the Rust
code passes (width, height, stride, fourcc) to the returned pointer. -/
def Frame.new (vsl_frame_init : Nat → Nat → Nat → Nat → Nat)
    (width height stride : Nat) (fourcc_str : List Nat) :
    Except RustError Frame :=
  if fourcc_str.length ≠ 4 then
    .error .fourccLenMsg
  else
    let fourcc := frameNewFourcc fourcc_str
    let ptr := vsl_frame_init width height stride fourcc
    if ptr = 0 then .error .lastOsError
    else .ok { ptr := ptr }

/-- Embedding of `Frame::wrap` from `src/frame.rs`. -/
def Frame.wrap (ptr : Nat) : Except RustError Frame :=
  if ptr = 0 then .error .unitErr
  else .ok { ptr := ptr }

/-- Embedding of the `TryFrom<*mut ffi::VSLFrame> for Frame` conversion
from `src/frame.rs`. -/
def Frame.try_from (ptr : Nat) : Except RustError Frame :=
  if ptr = 0 then .error .unitErr
  else .ok { ptr := ptr }

/-- Embedding of `Frame::get_ptr` from `src/frame.rs`. -/
def Frame.get_ptr (f : Frame) : Nat := f.ptr

/-- Embedding of `Frame::trylock` from `src/frame.rs`.  `ret` is the oracle
value returned by the native `vsl_frame_trylock` call. -/
def Frame.trylock (ret : Int) : Except RustError Unit :=
  if ret ≠ 0 then .error .lastOsError
  else .ok ()

/-- Embedding of `Frame::handle` from `src/frame.rs`.  `native_handle` is
the oracle value returned by the native `vsl_frame_handle` call. -/
def Frame.handle (native_handle : Int) : Option Int :=
  if native_handle = -1 then none
  else some native_handle

/-- Result of the native `vsl_frame_mmap` call: the returned pointer and
the size written through the out-parameter. -/
structure MmapRet where
  ptr : Nat
  size : Nat
deriving DecidableEq, Repr

/-- Embedding of `Frame::mmap` from `src/frame.rs`: rejects a frame whose
`handle()` is `None`, then rejects a null pointer or zero size from the
native `vsl_frame_mmap`, and otherwise returns the byte view (embedded by
its address and length). -/
def Frame.mmap (native_handle : Int) (native_mmap : MmapRet) :
    Except RustError MmapRet :=
  if Frame.handle native_handle = none then .error .unitErr
  else if native_mmap.ptr = 0 ∨ native_mmap.size = 0 then .error .unitErr
  else .ok native_mmap

/-- Embedding of `Frame::mmap_mut` from `src/frame.rs`; its body performs
the same checks as `Frame::mmap` and returns the mutable view. -/
def Frame.mmap_mut (native_handle : Int) (native_mmap : MmapRet) :
    Except RustError MmapRet :=
  if Frame.handle native_handle = none then .error .unitErr
  else if native_mmap.ptr = 0 ∨ native_mmap.size = 0 then .error .unitErr
  else .ok native_mmap

/-- Embedding of the `Encoder` struct from `src/encoder.rs`. -/
structure Encoder where
  ptr : Nat
deriving DecidableEq, Repr

/-- Embedding of `Encoder::new_output_frame` from `src/encoder.rs`.
`frame_ptr` is the oracle value returned by the native
`vsl_encoder_new_output_frame` call; a null result and a failed
`try_into` both produce the `NullStringError` value. -/
def Encoder.new_output_frame (frame_ptr : Nat) : Except RustError Frame :=
  if frame_ptr = 0 then .error .nullStringMsg
  else
    match Frame.try_from frame_ptr with
    | .ok frame => .ok frame
    | .error _ => .error .nullStringMsg

/-- Observable state of the native frame descriptor behind a `Frame`:
the ownership count, the lock flag, whether a mapped view is present, and
whether the backing buffer has been returned to its pool or freed. -/
structure FrameState where
  refs : Nat
  locked : Bool
  mapped : Bool
  freed : Bool
deriving DecidableEq, Repr

/-- Modelled from the spec: `vsl_frame_release` lives in the native
VideoStream C library, which is not among the available crate sources.
The spec states: "release(frame): decrements ownership; on last release,
unlocks if locked, unmaps if mapped, and — if host-owned — returns the
buffer slot to the pool of the host; if free-standing, frees backing
memory."  `freed` records that the buffer was returned or freed. -/
def vsl_frame_release (s : FrameState) : FrameState :=
  if s.refs ≤ 1 then
    { refs := 0, locked := false, mapped := false, freed := true }
  else
    { s with refs := s.refs - 1 }

/-- Modelled from the spec: the native `vsl_frame_unlock` releases the lock
("unlock(frame) -> Ok | Error(NotLocked)"). -/
def vsl_frame_unlock (s : FrameState) : FrameState :=
  { s with locked := false }

/-- Embedding of `Drop for Frame` from `src/frame.rs`: the destructor calls
`vsl_frame_unlock` and then `vsl_frame_release` on the stored pointer. -/
def Frame.drop_state (s : FrameState) : FrameState :=
  vsl_frame_release (vsl_frame_unlock s)

/-- Embedding of `Frame::release` from `src/frame.rs`: a single call to the
native `vsl_frame_release`. -/
def Frame.release_state (s : FrameState) : FrameState :=
  vsl_frame_release s

/-- Modelled from the spec: a buffer slot of a Host pool.  The Host and
Client modules (`src/host.rs`, `src/client.rs`) are declared in
`src/lib.rs` but their sources are not available.  The spec states that
each slot carries a generation serial, unique within the lifetime of the
host, identifying the current occupant. -/
structure Slot where
  serial : Nat
  data : Nat
deriving DecidableEq, Repr

/-- Modelled from the spec: the handle a Client retains for a resolved
frame, recording the serial of the occupant it was resolved against. -/
structure ClientHandle where
  serial : Nat
deriving DecidableEq, Repr

/-- Outcome of a client access through a retained handle. -/
inductive AccessResult
  | staleReference
  | value (v : Nat)
deriving DecidableEq, Repr

/-- Modelled from the spec: "a generation/serial check on every client
access: if the retained serial of the client no longer matches the current
occupant of the slot, reads must be rejected as stale." -/
def client_access (h : ClientHandle) (s : Slot) : AccessResult :=
  if h.serial ≠ s.serial then .staleReference
  else .value s.data

/-- Modelled from the spec: force reclamation after expiry installs a new
occupant in the slot under a fresh serial; serials are monotonic and
unique within the lifetime of the host, so the new serial is strictly
greater than that of the evicted occupant. -/
def force_reclaim (s : Slot) (newData : Nat) : Slot :=
  { serial := s.serial + 1, data := newData }

/-! ### Helper lemmas -/

/-- Bitwise or of a value below `2 ^ k` with a value shifted left by `k` is
plain addition: the two occupy disjoint bit ranges. -/
theorem lor_small_shift (a b k : Nat) (ha : a < 2 ^ k) :
    a ||| b <<< k = a + b * 2 ^ k := by
  have h := Nat.mul_add_lt_is_or ha b
  rw [Nat.shiftLeft_eq, Nat.lor_comm, Nat.mul_comm b (2 ^ k), ← h]
  ring

/-- The or-chain of the spec formula, written additively. -/
theorem lor_chain_eq_add (b0 b1 b2 b3 : Nat)
    (h0 : b0 < 256) (h1 : b1 < 256) (h2 : b2 < 256) :
    ((b0 ||| b1 <<< 8) ||| b2 <<< 16) ||| b3 <<< 24
      = b0 + b1 * 256 + b2 * 65536 + b3 * 16777216 := by
  have s1 : b0 ||| b1 <<< 8 = b0 + b1 * 256 := by
    have := lor_small_shift b0 b1 8 (by omega)
    simpa using this
  have s2 : (b0 + b1 * 256) ||| b2 <<< 16 = b0 + b1 * 256 + b2 * 65536 := by
    have := lor_small_shift (b0 + b1 * 256) b2 16 (by omega)
    simpa using this
  have s3 : (b0 + b1 * 256 + b2 * 65536) ||| b3 <<< 24
      = b0 + b1 * 256 + b2 * 65536 + b3 * 16777216 := by
    have := lor_small_shift (b0 + b1 * 256 + b2 * 65536) b3 24 (by omega)
    simpa using this
  rw [s1, s2, s3]

/-- Evaluation of `fourcc` on a list with at least four byte entries. -/
theorem fourcc_cons_eval (b0 b1 b2 b3 : Nat) (rest : List Nat)
    (h0 : b0 < 256) (h1 : b1 < 256) (h2 : b2 < 256) (h3 : b3 < 256) :
    fourcc (b0 :: b1 :: b2 :: b3 :: rest)
      = some (b0 + b1 * 256 + b2 * 65536 + b3 * 16777216) := by
  have hr : List.range 4 = [0, 1, 2, 3] := by decide
  simp only [fourcc, hr, List.foldl_cons, List.foldl_nil]
  simp only [List.getElem?_cons_zero, List.getElem?_cons_succ]
  simp only [Nat.shiftLeft_eq, U32LIM]
  norm_num
  have m0 : b0 % 4294967296 = b0 := Nat.mod_eq_of_lt (by omega)
  have m1 : b1 * 256 % 4294967296 = b1 * 256 := Nat.mod_eq_of_lt (by omega)
  have m2 : b2 * 65536 % 4294967296 = b2 * 65536 := Nat.mod_eq_of_lt (by omega)
  have m3 : b3 * 16777216 % 4294967296 = b3 * 16777216 :=
    Nat.mod_eq_of_lt (by omega)
  rw [m0, m1, m2, m3]
  have s2 : (b0 + b1 * 256) ||| b2 * 65536 = b0 + b1 * 256 + b2 * 65536 := by
    have := lor_small_shift (b0 + b1 * 256) b2 16 (by omega)
    rw [Nat.shiftLeft_eq] at this
    simpa using this
  have s1 : b0 ||| b1 * 256 = b0 + b1 * 256 := by
    have := lor_small_shift b0 b1 8 (by omega)
    rw [Nat.shiftLeft_eq] at this
    simpa using this
  have s3 : (b0 + b1 * 256 + b2 * 65536) ||| b3 * 16777216
      = b0 + b1 * 256 + b2 * 65536 + b3 * 16777216 := by
    have := lor_small_shift (b0 + b1 * 256 + b2 * 65536) b3 24 (by omega)
    rw [Nat.shiftLeft_eq] at this
    simpa using this
  rw [s1, s2, s3]

/-- Evaluation of the `Frame::new` packing loop on a 4-byte list. -/
theorem frameNewFourcc_eval (b0 b1 b2 b3 : Nat)
    (h0 : b0 < 256) (h1 : b1 < 256) (h2 : b2 < 256) (h3 : b3 < 256) :
    frameNewFourcc [b0, b1, b2, b3]
      = b0 + b1 * 256 + b2 * 65536 + b3 * 16777216 := by
  have hl : ([b0, b1, b2, b3] : List Nat).length = 4 := rfl
  have hr : List.range 4 = [0, 1, 2, 3] := by decide
  rw [frameNewFourcc, hl, hr]
  simp only [List.foldl_cons, List.foldl_nil,
    List.getD_cons_zero, List.getD_cons_succ]
  simp only [Nat.shiftLeft_eq, U32LIM]
  norm_num
  omega

/-- A list of fewer than four bytes makes the index expression inside
`fourcc` go out of bounds. -/
theorem fourcc_short : ∀ (bytes : List Nat), bytes.length < 4 →
    fourcc bytes = none
  | [], _ => rfl
  | [_], _ => rfl
  | [_, _], _ => rfl
  | [_, _, _], _ => rfl
  | _ :: _ :: _ :: _ :: t, h => by
      simp only [List.length_cons] at h
      omega

/-- Evaluation of the spec formula on a list with at least four bytes. -/
theorem fourccSpecLE_cons_eval (b0 b1 b2 b3 : Nat) (rest : List Nat)
    (h0 : b0 < 256) (h1 : b1 < 256) (h2 : b2 < 256) :
    fourccSpecLE (b0 :: b1 :: b2 :: b3 :: rest)
      = b0 + b1 * 256 + b2 * 65536 + b3 * 16777216 := by
  show ((b0 ||| b1 <<< 8) ||| b2 <<< 16) ||| b3 <<< 24 = _
  exact lor_chain_eq_add b0 b1 b2 b3 h0 h1 h2

/-- A list of length four is a four-element literal. -/
theorem list_eq_of_length_four : ∀ (bytes : List Nat), bytes.length = 4 →
    ∃ b0 b1 b2 b3, bytes = [b0, b1, b2, b3]
  | [], h => by simp at h
  | [_], h => by simp at h
  | [_, _], h => by simp at h
  | [_, _, _], h => by simp at h
  | [b0, b1, b2, b3], _ => ⟨b0, b1, b2, b3, rfl⟩
  | _ :: _ :: _ :: _ :: _ :: _, h => by
      simp only [List.length_cons] at h
      omega

/-- A list of length at least four starts with four elements. -/
theorem list_four_prefix : ∀ (bytes : List Nat), 4 ≤ bytes.length →
    ∃ b0 b1 b2 b3 rest, bytes = b0 :: b1 :: b2 :: b3 :: rest
  | [], h => by simp at h
  | [_], h => by simp only [List.length_cons, List.length_nil] at h; omega
  | [_, _], h => by simp only [List.length_cons, List.length_nil] at h; omega
  | [_, _, _], h => by simp only [List.length_cons, List.length_nil] at h; omega
  | b0 :: b1 :: b2 :: b3 :: rest, _ => ⟨b0, b1, b2, b3, rest, rfl⟩

/-! ### Claim theorems -/

/-- C1: for every 4-character ASCII format string, the encoding computed by
the top-level `fourcc` function and by the packing loop inside `Frame::new`
both equal the spec formula
`byte[0] | byte[1]<<8 | byte[2]<<16 | byte[3]<<24`, the 4 bytes packed
little-endian into a 32-bit value. -/
theorem c1_fourcc_little_endian (bytes : List Nat)
    (hlen : bytes.length = 4) (hb : ∀ b ∈ bytes, b < 128) :
    fourcc bytes = some (fourccSpecLE bytes)
      ∧ frameNewFourcc bytes = fourccSpecLE bytes := by
  obtain ⟨b0, b1, b2, b3, rfl⟩ := list_eq_of_length_four bytes hlen
  have h0 : b0 < 256 := by have := hb b0 (by simp); omega
  have h1 : b1 < 256 := by have := hb b1 (by simp); omega
  have h2 : b2 < 256 := by have := hb b2 (by simp); omega
  have h3 : b3 < 256 := by have := hb b3 (by simp); omega
  rw [fourcc_cons_eval b0 b1 b2 b3 [] h0 h1 h2 h3,
    frameNewFourcc_eval b0 b1 b2 b3 h0 h1 h2 h3,
    fourccSpecLE_cons_eval b0 b1 b2 b3 [] h0 h1 h2]
  exact ⟨rfl, rfl⟩

theorem c1_witness :
    fourcc [78, 86, 49, 50] = some (fourccSpecLE [78, 86, 49, 50])
      ∧ frameNewFourcc [78, 86, 49, 50] = fourccSpecLE [78, 86, 49, 50] :=
  c1_fourcc_little_endian [78, 86, 49, 50] (by decide) (by decide)

/-- C2: `Frame::new` validates the format string length.  For a format
string whose byte length is not 4 it returns the invalid-format error, and
the result does not depend on the native layer (the same for every native
oracle, so the native call is never consulted).  For a 4-byte format
string it proceeds past validation and succeeds whenever the native
`vsl_frame_init` returns a non-null frame. -/
theorem c2_frame_new_validates (init init2 : Nat → Nat → Nat → Nat → Nat)
    (w h s : Nat) (str : List Nat) :
    (str.length ≠ 4 →
        Frame.new init w h s str = .error .fourccLenMsg
          ∧ Frame.new init w h s str = Frame.new init2 w h s str)
      ∧ (str.length = 4 → init w h s (frameNewFourcc str) ≠ 0 →
        Frame.new init w h s str
          = .ok { ptr := init w h s (frameNewFourcc str) }) := by
  constructor
  · intro hne
    constructor <;> simp [Frame.new, hne]
  · intro hlen hnz
    simp [Frame.new, hlen, hnz]

theorem c2_witness :
    Frame.new (fun _ _ _ _ => 7) 640 480 640 [78, 86, 49, 50]
      = .ok { ptr := 7 } :=
  (c2_frame_new_validates (fun _ _ _ _ => 7) (fun _ _ _ _ => 7)
    640 480 640 [78, 86, 49, 50]).2 (by decide) (by decide)

/-- C3 counterexample: the claim says every string whose length is not 4
fails with an invalid-format error and never yields a packed value, yet
`fourcc` on the 5-byte string "ABCDE" returns the packed value built from
its first 4 bytes. -/
theorem c3_counterexample :
    ([65, 66, 67, 68, 69] : List Nat).length ≠ 4
      ∧ fourcc [65, 66, 67, 68, 69] = some 1145258561 := by decide

/-- C3 (amended): the top-level `fourcc` function performs no length
validation at all.  On a string shorter than 4 bytes the indexing
`bytes[i]` aborts out of bounds (no error value is returned), and on a
string of 4 or more bytes it returns the little-endian packing of the
first 4 bytes, silently ignoring the rest.  Only `Frame::new` reports the
invalid-format error. -/
theorem c3_fourcc_no_validation (bytes : List Nat)
    (hb : ∀ b ∈ bytes, b < 256) :
    (bytes.length < 4 → fourcc bytes = none)
      ∧ (4 ≤ bytes.length → fourcc bytes = some (fourccSpecLE bytes)) := by
  constructor
  · exact fourcc_short bytes
  · intro hlen
    obtain ⟨b0, b1, b2, b3, rest, rfl⟩ := list_four_prefix bytes hlen
    have h0 : b0 < 256 := hb b0 (by simp)
    have h1 : b1 < 256 := hb b1 (by simp)
    have h2 : b2 < 256 := hb b2 (by simp)
    have h3 : b3 < 256 := hb b3 (by simp)
    rw [fourcc_cons_eval b0 b1 b2 b3 rest h0 h1 h2 h3,
      fourccSpecLE_cons_eval b0 b1 b2 b3 rest h0 h1 h2]

theorem c3_witness :
    fourcc [65, 66, 67, 68, 69] = some (fourccSpecLE [65, 66, 67, 68, 69])
      ∧ fourcc [65, 66] = none :=
  ⟨(c3_fourcc_no_validation [65, 66, 67, 68, 69] (by decide)).2 (by decide),
    (c3_fourcc_no_validation [65, 66] (by decide)).1 (by decide)⟩

/-- C4: the fourcc encoding round-trips.  Decoding the packed value of any
valid 4-character format string recovers the string, and for every 32-bit
value in the image of the encoding, encoding its decoding gives the value
back, so the packing is injective on 4-byte ASCII strings and
`fourccDecode` is its inverse. -/
theorem c4_fourcc_roundtrip :
    (∀ (bytes : List Nat), bytes.length = 4 → (∀ b ∈ bytes, b < 128) →
        fourccDecode (fourccSpecLE bytes) = bytes
          ∧ fourcc bytes = some (fourccSpecLE bytes))
      ∧ (∀ y : Nat, y < U32LIM → fourcc (fourccDecode y) = some y) := by
  constructor
  · intro bytes hlen hb
    obtain ⟨b0, b1, b2, b3, rfl⟩ := list_eq_of_length_four bytes hlen
    have h0 : b0 < 256 := by have := hb b0 (by simp); omega
    have h1 : b1 < 256 := by have := hb b1 (by simp); omega
    have h2 : b2 < 256 := by have := hb b2 (by simp); omega
    have h3 : b3 < 256 := by have := hb b3 (by simp); omega
    refine ⟨?_, ?_⟩
    · rw [fourccSpecLE_cons_eval b0 b1 b2 b3 [] h0 h1 h2]
      simp only [fourccDecode, List.cons.injEq, and_true]
      refine ⟨by omega, by omega, by omega, by omega⟩
    · rw [fourcc_cons_eval b0 b1 b2 b3 [] h0 h1 h2 h3,
        fourccSpecLE_cons_eval b0 b1 b2 b3 [] h0 h1 h2]
  · intro y hy
    unfold U32LIM at hy
    show fourcc [y % 256, y / 256 % 256, y / 65536 % 256, y / 16777216 % 256]
      = some y
    rw [fourcc_cons_eval _ _ _ _ [] (by omega) (by omega) (by omega)
      (by omega)]
    congr 1
    omega

theorem c4_witness :
    (fourccDecode (fourccSpecLE [78, 86, 49, 50]) = [78, 86, 49, 50]
        ∧ fourcc [78, 86, 49, 50] = some (fourccSpecLE [78, 86, 49, 50]))
      ∧ fourcc (fourccDecode 1145258561) = some 1145258561 :=
  ⟨c4_fourcc_roundtrip.1 [78, 86, 49, 50] (by decide) (by decide),
    c4_fourcc_roundtrip.2 1145258561 (by decide)⟩

/-- C5: `Frame::trylock` is non-blocking and reports contention as an
error.  Whenever the native lock primitive reports a nonzero value the
call returns the already-locked error immediately, and it returns Ok
exactly when the native primitive reports 0. -/
theorem c5_trylock_nonblocking (ret : Int) :
    (ret ≠ 0 → Frame.trylock ret = .error .lastOsError)
      ∧ (Frame.trylock ret = .ok () ↔ ret = 0) := by
  constructor
  · intro h
    simp [Frame.trylock, h]
  · by_cases h : ret = 0 <;> simp [Frame.trylock, h]

theorem c5_witness :
    Frame.trylock 1 = .error .lastOsError ∧ Frame.trylock 0 = .ok () :=
  ⟨(c5_trylock_nonblocking 1).1 (by decide),
    (c5_trylock_nonblocking 0).2.mpr rfl⟩

/-- C6: mapping a Frame with no backing descriptor always fails.  When
`handle()` is None (the native handle query reports -1), both
`Frame::mmap` and `Frame::mmap_mut` return an error without returning a
byte view, whatever the native mmap call would produce. -/
theorem c6_mmap_unbacked_fails (nh : Int) (nm : MmapRet)
    (hnone : Frame.handle nh = none) :
    Frame.mmap nh nm = .error .unitErr
      ∧ Frame.mmap_mut nh nm = .error .unitErr := by
  constructor <;> simp [Frame.mmap, Frame.mmap_mut, hnone]

theorem c6_witness :
    Frame.mmap (-1) { ptr := 4096, size := 100 } = .error .unitErr
      ∧ Frame.mmap_mut (-1) { ptr := 4096, size := 100 }
        = .error .unitErr :=
  c6_mmap_unbacked_fails (-1) { ptr := 4096, size := 100 } (by decide)

/-- C7: releasing the last reference performs full cleanup.  On a live
state whose ownership count is at most one, both `Frame::release` and the
destructor of `Frame` leave a state in which the backing buffer has been
returned or freed, and whenever they free the buffer the resulting state
holds neither the lock nor a mapped view: a Frame is never destroyed
while still locked or mapped. -/
theorem c7_release_full_cleanup (s : FrameState) (hs : s.freed = false) :
    ((Frame.release_state s).freed = true →
        (Frame.release_state s).locked = false
          ∧ (Frame.release_state s).mapped = false)
      ∧ ((Frame.drop_state s).freed = true →
        (Frame.drop_state s).locked = false
          ∧ (Frame.drop_state s).mapped = false)
      ∧ (s.refs ≤ 1 → (Frame.release_state s).freed = true
          ∧ (Frame.drop_state s).freed = true) := by
  unfold Frame.release_state Frame.drop_state vsl_frame_release
    vsl_frame_unlock
  by_cases h : s.refs ≤ 1 <;> simp [h, hs]

theorem c7_witness :
    (Frame.release_state ⟨1, true, true, false⟩).locked = false
      ∧ (Frame.release_state ⟨1, true, true, false⟩).mapped = false :=
  (c7_release_full_cleanup ⟨1, true, true, false⟩ rfl).1 (by decide)

/-- C8: `Encoder::new_output_frame` returns either a valid Frame or an
allocation-failure error.  When the native allocation returns the null
pointer the call fails with the allocation error value, and otherwise it
returns a Frame wrapping the allocated output buffer pointer. -/
theorem c8_new_output_frame (p : Nat) :
    (p = 0 → Encoder.new_output_frame p = .error .nullStringMsg)
      ∧ (p ≠ 0 → Encoder.new_output_frame p = .ok { ptr := p }) := by
  constructor <;> intro h <;>
    simp [Encoder.new_output_frame, Frame.try_from, h]

theorem c8_witness :
    Encoder.new_output_frame 0 = .error .nullStringMsg
      ∧ Encoder.new_output_frame 5 = .ok { ptr := 5 } :=
  ⟨(c8_new_output_frame 0).1 rfl, (c8_new_output_frame 5).2 (by decide)⟩

/-- C9: after force reclamation a stale handle fails safely.  A client
handle resolved against the previous occupant of a slot (its retained
serial matches the pre-reclamation occupant) observes the stale-reference
rejection on every access after the slot is force-reclaimed, and never
reads the data of the new occupant. -/
theorem c9_stale_reference (h : ClientHandle) (s : Slot) (d : Nat)
    (hmatch : h.serial = s.serial) :
    client_access h (force_reclaim s d) = .staleReference := by
  have hne : h.serial ≠ s.serial + 1 := by omega
  simp [client_access, force_reclaim, hne]

theorem c9_witness :
    client_access { serial := 5 } (force_reclaim { serial := 5, data := 10 } 99)
      = .staleReference :=
  c9_stale_reference { serial := 5 } { serial := 5, data := 10 } 99 rfl

/-- C10: every Frame constructed through the public interface holds a
non-null pointer.  `Frame::new`, `Frame::wrap` and the TryFrom conversion
return an error instead of a Frame whenever the pointer is null, so a
successfully constructed Frame always stores a non-null pointer, and
`get_ptr` returns the stored pointer unchanged. -/
theorem c10_nonnull_invariant (init : Nat → Nat → Nat → Nat → Nat)
    (w h s : Nat) (str : List Nat) (p : Nat) (f1 f2 f3 f4 : Frame) :
    (Frame.new init w h s str = .ok f1 → f1.ptr ≠ 0)
      ∧ (Frame.wrap p = .ok f2 → f2.ptr ≠ 0)
      ∧ (Frame.try_from p = .ok f3 → f3.ptr ≠ 0)
      ∧ Frame.get_ptr f4 = f4.ptr := by
  refine ⟨?_, ?_, ?_, rfl⟩
  · intro hok
    by_cases hl : str.length ≠ 4
    · simp [Frame.new, hl] at hok
    · by_cases hz : init w h s (frameNewFourcc str) = 0
      · simp [Frame.new, hl, hz] at hok
      · simp only [Frame.new, hl, hz, if_neg, if_false, ite_false,
          reduceIte] at hok
        rw [show f1 = { ptr := init w h s (frameNewFourcc str) } from
          (Except.ok.inj hok).symm]
        exact hz
  · intro hok
    by_cases hz : p = 0
    · simp [Frame.wrap, hz] at hok
    · simp only [Frame.wrap, hz, if_false, ite_false, reduceIte] at hok
      rw [show f2 = { ptr := p } from (Except.ok.inj hok).symm]
      exact hz
  · intro hok
    by_cases hz : p = 0
    · simp [Frame.try_from, hz] at hok
    · simp only [Frame.try_from, hz, if_false, ite_false, reduceIte] at hok
      rw [show f3 = { ptr := p } from (Except.ok.inj hok).symm]
      exact hz

theorem c10_witness :
    Frame.wrap 3 = .ok { ptr := 3 }
      ∧ (({ ptr := 3 } : Frame)).ptr ≠ 0 :=
  ⟨by simp [Frame.wrap],
    (c10_nonnull_invariant (fun _ _ _ _ => 0) 0 0 0 [] 3
      { ptr := 3 } { ptr := 3 } { ptr := 3 } { ptr := 3 }).2.1
      (by simp [Frame.wrap])⟩

end VideoStream
